import Mathlib

/-!
Shallow embedding of the zerolog-to-slog transformer (`main.go`) and proofs
about its pattern-matching and reconstruction engine.

The Go syntax-tree values the engine inspects (`dst.Expr`, `dst.Node`) are
embedded as inductive types below; the engine's functions
(`convertFieldToSlogAttr`, `extractZerologChain`, `buildSlogLogAttrsCall`,
`RewriteVisitor.Visit`) are translated function by function.  Go slice
indexing that can be out of range is modelled with `Except Unit`, where
`Except.error ()` stands for a runtime panic of the Go program; `Option`
models Go's `nil`-signalled "no match".
-/

namespace ZerologSlog

/-- Embedding of the subset of `dst.Expr` shapes the transformer inspects or
constructs: identifiers, basic literals, selector expressions, call
expressions.  Every other expression shape is collapsed into `other`, since
the Go code only ever type-asserts against the four shapes above and treats
everything else uniformly (the assertion fails). -/
inductive Expr where
  | ident (name : String)
  | basicLit (kind : String) (value : String)
  | selector (x : Expr) (sel : String)
  | call (fn : Expr) (args : List Expr)
  | other
  deriving Repr

mutual

/-- Decidable equality for `Expr` (spelled out by hand because `Expr` nests
`List Expr` inside `call`). -/
def Expr.decEq : (a b : Expr) → Decidable (a = b)
  | .ident n, .ident m =>
    match String.decEq n m with
    | isTrue h => isTrue (by rw [h])
    | isFalse h => isFalse (by intro hc; cases hc; exact h rfl)
  | .basicLit k v, .basicLit k' v' =>
    match String.decEq k k', String.decEq v v' with
    | isTrue h1, isTrue h2 => isTrue (by rw [h1, h2])
    | isFalse h1, _ => isFalse (by intro hc; cases hc; exact h1 rfl)
    | _, isFalse h2 => isFalse (by intro hc; cases hc; exact h2 rfl)
  | .selector x s, .selector x' s' =>
    match Expr.decEq x x', String.decEq s s' with
    | isTrue h1, isTrue h2 => isTrue (by rw [h1, h2])
    | isFalse h1, _ => isFalse (by intro hc; cases hc; exact h1 rfl)
    | _, isFalse h2 => isFalse (by intro hc; cases hc; exact h2 rfl)
  | .call f as, .call f' as' =>
    match Expr.decEq f f', Expr.decEqList as as' with
    | isTrue h1, isTrue h2 => isTrue (by rw [h1, h2])
    | isFalse h1, _ => isFalse (by intro hc; cases hc; exact h1 rfl)
    | _, isFalse h2 => isFalse (by intro hc; cases hc; exact h2 rfl)
  | .other, .other => isTrue rfl
  | .ident _, .basicLit _ _ => isFalse (by intro hc; cases hc)
  | .ident _, .selector _ _ => isFalse (by intro hc; cases hc)
  | .ident _, .call _ _ => isFalse (by intro hc; cases hc)
  | .ident _, .other => isFalse (by intro hc; cases hc)
  | .basicLit _ _, .ident _ => isFalse (by intro hc; cases hc)
  | .basicLit _ _, .selector _ _ => isFalse (by intro hc; cases hc)
  | .basicLit _ _, .call _ _ => isFalse (by intro hc; cases hc)
  | .basicLit _ _, .other => isFalse (by intro hc; cases hc)
  | .selector _ _, .ident _ => isFalse (by intro hc; cases hc)
  | .selector _ _, .basicLit _ _ => isFalse (by intro hc; cases hc)
  | .selector _ _, .call _ _ => isFalse (by intro hc; cases hc)
  | .selector _ _, .other => isFalse (by intro hc; cases hc)
  | .call _ _, .ident _ => isFalse (by intro hc; cases hc)
  | .call _ _, .basicLit _ _ => isFalse (by intro hc; cases hc)
  | .call _ _, .selector _ _ => isFalse (by intro hc; cases hc)
  | .call _ _, .other => isFalse (by intro hc; cases hc)
  | .other, .ident _ => isFalse (by intro hc; cases hc)
  | .other, .basicLit _ _ => isFalse (by intro hc; cases hc)
  | .other, .selector _ _ => isFalse (by intro hc; cases hc)
  | .other, .call _ _ => isFalse (by intro hc; cases hc)

/-- Decidable equality for lists of `Expr`, mutually with `Expr.decEq`. -/
def Expr.decEqList : (as bs : List Expr) → Decidable (as = bs)
  | [], [] => isTrue rfl
  | a :: as, b :: bs =>
    match Expr.decEq a b, Expr.decEqList as bs with
    | isTrue h1, isTrue h2 => isTrue (by rw [h1, h2])
    | isFalse h1, _ => isFalse (by intro hc; cases hc; exact h1 rfl)
    | _, isFalse h2 => isFalse (by intro hc; cases hc; exact h2 rfl)
  | [], _ :: _ => isFalse (by intro hc; cases hc)
  | _ :: _, [] => isFalse (by intro hc; cases hc)

end

instance : DecidableEq Expr := Expr.decEq

/-- Decidable equality for `Except` results, so concrete runs of the
embedded functions can be settled by `decide`. -/
instance {ε α : Type} [DecidableEq ε] [DecidableEq α] : DecidableEq (Except ε α) := fun a b =>
  match a, b with
  | Except.ok x, Except.ok y =>
    if h : x = y then isTrue (by rw [h]) else isFalse (by intro hc; cases hc; exact h rfl)
  | Except.error x, Except.error y =>
    if h : x = y then isTrue (by rw [h]) else isFalse (by intro hc; cases hc; exact h rfl)
  | Except.ok _, Except.error _ => isFalse (by intro hc; cases hc)
  | Except.error _, Except.ok _ => isFalse (by intro hc; cases hc)

/-- The opaque decoration payload (`Decs` field of a `dst` node: comments and
blank lines).  The transformer only ever copies this payload wholesale from an
original node to its replacement, so an abstract token models it faithfully. -/
abbrev Decs := Nat

/-- Embedding of the `dst.Node` shapes `RewriteVisitor.Visit` distinguishes:
an import declaration (with the quoted path string and its decorations), an
expression statement (with its expression and its decorations), and every
other node shape collapsed into `other`. -/
inductive Node where
  | importSpec (pathValue : String) (decs : Decs)
  | exprStmt (x : Expr) (decs : Decs)
  | other
  deriving Repr, DecidableEq

/-- The `logLevels` map of `main.go`: zerolog level names to the textual name
of the matching `slog.Level` constant.  A Go map literal with string keys is
embedded as an association list consulted with `List.lookup`. -/
def logLevels : List (String × String) :=
  [("Trace", "slog.LevelTrace"),
   ("Debug", "slog.LevelDebug"),
   ("Info", "slog.LevelInfo"),
   ("Warn", "slog.LevelWarn"),
   ("Error", "slog.LevelError"),
   ("Fatal", "slog.LevelError"),
   ("Panic", "slog.LevelError")]

/-- `isLoggerLevel` of `main.go`: membership test in the `logLevels` map. -/
def isLoggerLevel (name : String) : Bool :=
  (logLevels.lookup name).isSome

/-- `convertFieldToSlogAttr` of `main.go`: one field-method link
`(funcName, args)` is mapped to the equivalent `slog` attribute call, or to
`none` when the link is not recognized (Go returns a `nil` pointer). -/
def convertFieldToSlogAttr (funcName : String) (args : List Expr) : Option Expr :=
  let picked : Option (String × List Expr) :=
    match funcName with
    | "Bool" => some ("Bool", args)
    | "Dur" => some ("Duration", args)
    | "Float32" =>
      match args with
      | [a0, a1] => some ("Float64", [a0, Expr.call (Expr.ident "float64") [a1]])
      | _ => none
    | "Float64" => some ("Float64", args)
    | "Str" => some ("String", args)
    | "Int" => some ("Int", args)
    | "Int8" => match args with
      | [a0, a1] => some ("Int", [a0, Expr.call (Expr.ident "int") [a1]])
      | _ => none
    | "Int16" => match args with
      | [a0, a1] => some ("Int", [a0, Expr.call (Expr.ident "int") [a1]])
      | _ => none
    | "Int32" => match args with
      | [a0, a1] => some ("Int", [a0, Expr.call (Expr.ident "int") [a1]])
      | _ => none
    | "Int64" => some ("Int64", args)
    | "Uint64" => some ("UInt64", args)
    | "Uint" => match args with
      | [a0, a1] => some ("Uint64", [a0, Expr.call (Expr.ident "uint64") [a1]])
      | _ => none
    | "Uint8" => match args with
      | [a0, a1] => some ("Uint64", [a0, Expr.call (Expr.ident "uint64") [a1]])
      | _ => none
    | "Uint16" => match args with
      | [a0, a1] => some ("Uint64", [a0, Expr.call (Expr.ident "uint64") [a1]])
      | _ => none
    | "Uint32" => match args with
      | [a0, a1] => some ("Uint64", [a0, Expr.call (Expr.ident "uint64") [a1]])
      | _ => none
    | "Time" => some ("Time", args)
    | "Err" => some ("Any", Expr.basicLit "STRING" "\"err\"" :: args)
    | _ =>
      if args.length = 2 then some ("Any", args) else none
  match picked with
  | some (slogAttrFunc, slogArgs) =>
    some (Expr.call (Expr.selector (Expr.ident "slog") slogAttrFunc) slogArgs)
  | none => none

/-- The `for` loop inside `extractZerologChain` of `main.go`, as a recursion
over the current call's function expression.  `fn`/`args` are the `Fun` and
`Args` of the call under inspection, `slogAttrs` the accumulator; the Go code
prepends each recognized attribute (`append([...]{attrCall}, slogAttrs...)`)
and silently keeps walking when `convertFieldToSlogAttr` returned `nil`. -/
def extractChainLoop (fn : Expr) (args : List Expr) (slogAttrs : List Expr) :
    Option (String × List Expr) :=
  match fn with
  | Expr.selector sx funcName =>
    if isLoggerLevel funcName then
      match sx with
      | Expr.ident _ => some (funcName, slogAttrs)
      | _ => none
    else
      let slogAttrs' :=
        match convertFieldToSlogAttr funcName args with
        | some attrCall => attrCall :: slogAttrs
        | none => slogAttrs
      match sx with
      | Expr.call prevFn prevArgs => extractChainLoop prevFn prevArgs slogAttrs'
      | _ => none
  | _ => none

/-- `extractZerologChain` of `main.go`.  `chainFn`/`chainArgs` are the `Fun`
and `Args` of the chain-head call (`selector.X` in `Visit`).  The Go code
first evaluates `termArgs[0]` for a `Msg`/`Msgf` terminator, which panics when
the terminator has no arguments: that panic is `Except.error ()`.  A returned
triple with a `none` message is the Go `return "", nil, nil` no-match value. -/
def extractZerologChain (chainFn : Expr) (chainArgs : List Expr)
    (termFunc : String) (termArgs : List Expr) :
    Except Unit (String × Option Expr × List Expr) :=
  let messageOrPanic : Except Unit Expr :=
    if termFunc = "Msg" ∨ termFunc = "Msgf" then
      match termArgs with
      | [] => Except.error ()
      | m :: _ => Except.ok m
    else
      Except.ok (Expr.basicLit "STRING" "\"zerolog event\"")
  match messageOrPanic with
  | Except.error _ => Except.error ()
  | Except.ok message =>
    match extractChainLoop chainFn chainArgs [] with
    | some (level, slogAttrs) => Except.ok (level, some message, slogAttrs)
    | none => Except.ok ("", none, [])

/-- Model of `strings.Split(s, ".")` on the character list: splits at every
dot, keeping empty segments, always returning at least one segment. -/
def splitDotChars : List Char → List (List Char)
  | [] => [[]]
  | c :: rest =>
    match splitDotChars rest with
    | [] => [[]]
    | g :: gs => if c = '.' then [] :: g :: gs else (c :: g) :: gs

/-- Model of the Go call `strings.Split(s, ".")` used by
`buildSlogLogAttrsCall`. -/
def stringsSplitDot (s : String) : List String :=
  (splitDotChars s.data).map fun cs => String.mk cs

/-- `buildSlogLogAttrsCall` of `main.go`: looks the level name up in
`logLevels` (defaulting to `"slog.LevelInfo"`), splits the constant at the
dot into package and name (every value in the table contains a dot, so the
Go indexing `parts[0]`/`parts[1]` is total and `headD` introduces no
behaviour), and assembles `slog.LogAttrs(ctx, level, message, attrs...)`. -/
def buildSlogLogAttrsCall (levelStr : String) (message : Expr)
    (slogAttrs : List Expr) : Expr :=
  let levelConstant := (logLevels.lookup levelStr).getD "slog.LevelInfo"
  let parts := stringsSplitDot levelConstant
  let levelPackage := parts.headD ""
  let levelName := (parts.drop 1).headD ""
  let levelExpr := Expr.selector (Expr.ident levelPackage) levelName
  let contextExpr := Expr.ident "ctx"
  let args := [contextExpr, levelExpr, message] ++ slogAttrs
  Expr.call (Expr.selector (Expr.ident "slog") "LogAttrs") args

/-- `RewriteVisitor.Visit` of `main.go`, as the decision it takes for one
node: `Except.ok (some r)` means an entry `node ↦ r` is recorded in the
Replacement Map (Go then returns `nil` to stop descending), `Except.ok none`
means no entry (Go returns `v`), and `Except.error ()` propagates the panic
of `extractZerologChain`. -/
def visit (node : Node) : Except Unit (Option Node) :=
  match node with
  | Node.importSpec pathValue decs =>
    if pathValue = "\"github.com/rs/zerolog/log\"" then
      Except.ok (some (Node.importSpec "\"log/slog\"" decs))
    else
      Except.ok none
  | Node.exprStmt x decs =>
    match x with
    | Expr.call fn callArgs =>
      match fn with
      | Expr.selector sx termFunc =>
        if termFunc = "Msg" ∨ termFunc = "Msgf" ∨ termFunc = "Send" then
          match sx with
          | Expr.call chainFn chainArgs =>
            match extractZerologChain chainFn chainArgs termFunc callArgs with
            | Except.error _ => Except.error ()
            | Except.ok (levelStr, messageExpr, slogAttrs) =>
              match messageExpr with
              | none => Except.ok none
              | some message =>
                Except.ok (some (Node.exprStmt
                  (buildSlogLogAttrsCall levelStr message slogAttrs) decs))
          | _ => Except.ok none
        else
          Except.ok none
      | _ => Except.ok none
    | _ => Except.ok none
  | Node.other => Except.ok none

/-- One full run of the Rewrite Driver over the visitable nodes of a tree
(`dst.Walk` populating the Replacement Map, then `dstutil.Apply`
substituting each mapped node): every node on which `visit` records a
replacement is substituted, every other node is kept as parsed. -/
def transformNodes : List Node → Except Unit (List Node)
  | [] => Except.ok []
  | n :: rest =>
    match visit n with
    | Except.error _ => Except.error ()
    | Except.ok r =>
      match transformNodes rest with
      | Except.error _ => Except.error ()
      | Except.ok rest' => Except.ok (r.getD n :: rest')

/-- Builds the source-order chain expression
`root.level().f1(a1)....fn(an)`: the level-establishing call innermost, each
field link wrapped around it left-to-right. -/
def mkChain (root level : String) (fields : List (String × List Expr)) : Expr :=
  fields.foldl (fun acc fld => Expr.call (Expr.selector acc fld.1) fld.2)
    (Expr.call (Expr.selector (Expr.ident root) level) [])

/-- Runs `extractChainLoop` on a call expression (destructuring it into the
`Fun`/`Args` pair the Go loop works on); statement-side convenience. -/
def extractChainLoopOn (e : Expr) (slogAttrs : List Expr) :
    Option (String × List Expr) :=
  match e with
  | Expr.call fn args => extractChainLoop fn args slogAttrs
  | _ => none

/-- The severity-level selector expression `buildSlogLogAttrsCall` places as
the second argument of the built call (the lookup-default-split-select
computation of `main.go`, factored out so theorems can name it). -/
def slogLevelSel (levelStr : String) : Expr :=
  let levelConstant := (logLevels.lookup levelStr).getD "slog.LevelInfo"
  let parts := stringsSplitDot levelConstant
  Expr.selector (Expr.ident (parts.headD "")) ((parts.drop 1).headD "")

/-- The severity mapping exactly as the specification words it: Trace, Debug,
Info, Warn and Error map to the same-named target level constant, Fatal and
Panic to the Error-level constant, and every other name to the Info-level
constant.  Stated separately from the source-derived `logLevels` table so the
two can be compared. -/
def specSeverityTarget (level : String) : String :=
  if level = "Trace" then "LevelTrace"
  else if level = "Debug" then "LevelDebug"
  else if level = "Info" then "LevelInfo"
  else if level = "Warn" then "LevelWarn"
  else if level = "Error" then "LevelError"
  else if level = "Fatal" then "LevelError"
  else if level = "Panic" then "LevelError"
  else "LevelInfo"

/-- A chain built by `mkChain` is always a call expression. -/
theorem mkChain_isCall (root level : String)
    (fields : List (String × List Expr)) :
    ∃ f a, mkChain root level fields = Expr.call f a := by
  suffices h : ∀ (fs : List (String × List Expr)) (f : Expr) (a : List Expr),
      ∃ f' a', fs.foldl (fun acc fld => Expr.call (Expr.selector acc fld.1) fld.2)
        (Expr.call f a) = Expr.call f' a' by
    exact h fields _ _
  intro fs
  induction fs with
  | nil => intro f a; exact ⟨f, a, rfl⟩
  | cons g gs ih => intro f a; exact ih _ _

/-- Unfolding `mkChain` over one more (outermost) field link. -/
theorem mkChain_append (root level : String)
    (fs : List (String × List Expr)) (f : String × List Expr) :
    mkChain root level (fs ++ [f]) =
      Expr.call (Expr.selector (mkChain root level fs) f.1) f.2 := by
  simp [mkChain, List.foldl_append]

/-- One unfolding step of the chain-walking loop across a field link whose
method name is not a level name. -/
theorem extractChainLoop_field_step (pf : Expr) (pa : List Expr) (nm : String)
    (args acc : List Expr) (h : isLoggerLevel nm = false) :
    extractChainLoop (Expr.selector (Expr.call pf pa) nm) args acc =
      extractChainLoop pf pa
        (match convertFieldToSlogAttr nm args with
         | some attrCall => attrCall :: acc
         | none => acc) := by
  rw [extractChainLoop.eq_def]
  simp [h]

/-- The chain-walking loop terminates at a level-establishing call whose
receiver is a bare identifier, returning that level and the accumulator. -/
theorem extractChainLoop_level_step (rootName nm : String) (args acc : List Expr)
    (h : isLoggerLevel nm = true) :
    extractChainLoop (Expr.selector (Expr.ident rootName) nm) args acc =
      some (nm, acc) := by
  rw [extractChainLoop.eq_def]
  simp [h]

/-- Running the chain-walking loop over a chain built by `mkChain`: the loop
reaches the level-establishing call, and the accumulated attribute list is
the left-to-right `filterMap` of the field links through the Field Mapper
(recognized links in source order, unrecognized links silently dropped),
in front of the starting accumulator. -/
theorem extractChainLoopOn_mkChain (root level : String)
    (fields : List (String × List Expr)) (acc : List Expr)
    (hlvl : isLoggerLevel level = true)
    (hfld : ∀ p ∈ fields, isLoggerLevel p.1 = false) :
    extractChainLoopOn (mkChain root level fields) acc =
      some (level, (fields.filterMap fun p => convertFieldToSlogAttr p.1 p.2) ++ acc) := by
  revert hfld
  induction fields using List.reverseRecOn generalizing acc with
  | nil =>
    intro hfld
    show extractChainLoop (Expr.selector (Expr.ident root) level) [] acc = _
    rw [extractChainLoop_level_step root level [] acc hlvl]
    simp
  | append_singleton fs f ih =>
    intro hfld
    have hf : isLoggerLevel f.1 = false := hfld f (by simp)
    have hfs : ∀ p ∈ fs, isLoggerLevel p.1 = false := by
      intro p hp; exact hfld p (by simp [hp])
    obtain ⟨pf, pa, hcall⟩ := mkChain_isCall root level fs
    rw [mkChain_append]
    show extractChainLoop (Expr.selector (mkChain root level fs) f.1) f.2 acc = _
    rw [hcall, extractChainLoop_field_step pf pa f.1 f.2 acc hf]
    have hback : ∀ a, extractChainLoop pf pa a =
        extractChainLoopOn (mkChain root level fs) a := by
      intro a; rw [hcall]; rfl
    cases hconv : convertFieldToSlogAttr f.1 f.2 with
    | some attrCall =>
      simp only [hconv]
      rw [hback, ih (attrCall :: acc) hfs]
      simp [List.filterMap_append, hconv]
    | none =>
      simp only [hconv]
      rw [hback, ih acc hfs]
      simp [List.filterMap_append, hconv]

/-- Running the visitor on a whole statement `root.level().f1()....fn().Msg(m, rest...)`
built by `mkChain`: a replacement is recorded carrying the original
decorations, with the message `m` and the `filterMap` of the fields. -/
theorem visit_mkChain_msg (root level : String)
    (fields : List (String × List Expr)) (m : Expr) (rest : List Expr) (d : Decs)
    (hlvl : isLoggerLevel level = true)
    (hfld : ∀ p ∈ fields, isLoggerLevel p.1 = false) :
    visit (Node.exprStmt
        (Expr.call (Expr.selector (mkChain root level fields) "Msg") (m :: rest)) d) =
      Except.ok (some (Node.exprStmt
        (buildSlogLogAttrsCall level m
          (fields.filterMap fun p => convertFieldToSlogAttr p.1 p.2)) d)) := by
  obtain ⟨cf, ca, hcall⟩ := mkChain_isCall root level fields
  have hloop := extractChainLoopOn_mkChain root level fields [] hlvl hfld
  rw [hcall] at hloop ⊢
  have hloop' : extractChainLoop cf ca [] =
      some (level, fields.filterMap fun p => convertFieldToSlogAttr p.1 p.2) := by
    simpa [extractChainLoopOn] using hloop
  simp [visit, extractZerologChain, hloop']

/-- The built flat-logging call, with its argument list exposed: context
placeholder, level selector, message, then the attribute list verbatim. -/
theorem buildSlogLogAttrsCall_args (l : String) (m : Expr) (attrs : List Expr) :
    buildSlogLogAttrsCall l m attrs =
      Expr.call (Expr.selector (Expr.ident "slog") "LogAttrs")
        (Expr.ident "ctx" :: slogLevelSel l :: m :: attrs) := rfl

/-- A list whose traversal through an `Option`-valued function fully
succeeds filters-maps to exactly the list of produced values. -/
theorem filterMap_eq_of_mapM_eq_some {α β : Type} (f : α → Option β) :
    ∀ (l : List α) (bs : List β), l.mapM f = some bs → l.filterMap f = bs := by
  intro l
  induction l with
  | nil =>
    intro bs h
    simp only [List.mapM_nil, pure, Option.some.injEq] at h
    simp [← h]
  | cons a as ih =>
    intro bs h
    simp only [List.mapM_cons] at h
    cases hfa : f a with
    | none => rw [hfa] at h; simp at h
    | some b =>
      rw [hfa] at h
      cases hrest : as.mapM f with
      | none => rw [hrest] at h; simp at h
      | some cs =>
        rw [hrest] at h
        simp at h
        simp [List.filterMap_cons, hfa, ih cs hrest, h]

/-- Whenever the chain-walking loop succeeds, the level it returns is a
member of the enumerated level set (the loop's only success exit is the
`isLoggerLevel` branch). -/
theorem extractChainLoop_isLevel (fn : Expr) (args acc : List Expr) :
    ∀ l ats, extractChainLoop fn args acc = some (l, ats) → isLoggerLevel l = true := by
  induction fn, args, acc using extractChainLoop.induct with
  | case1 args acc funcName hlvl name =>
    intro l ats h
    rw [extractChainLoop_level_step name funcName args acc hlvl] at h
    simp at h
    exact h.1 ▸ hlvl
  | case2 args acc sx funcName hlvl hnotident =>
    intro l ats h
    cases sx with
    | ident name => exact (hnotident name rfl).elim
    | basicLit k v => rw [extractChainLoop.eq_def] at h; simp [hlvl] at h
    | selector a b => rw [extractChainLoop.eq_def] at h; simp [hlvl] at h
    | call a b => rw [extractChainLoop.eq_def] at h; simp [hlvl] at h
    | other => rw [extractChainLoop.eq_def] at h; simp [hlvl] at h
  | case3 args acc funcName hnl attrs' prevFn prevArgs ih =>
    intro l ats h
    rw [extractChainLoop_field_step prevFn prevArgs funcName args acc
      (by simpa using hnl)] at h
    exact ih l ats h
  | case4 args acc sx funcName hnl hnotcall =>
    intro l ats h
    cases sx with
    | call a b => exact (hnotcall a b rfl).elim
    | ident name => rw [extractChainLoop.eq_def] at h; simp [hnl] at h
    | basicLit k v => rw [extractChainLoop.eq_def] at h; simp [hnl] at h
    | selector a b => rw [extractChainLoop.eq_def] at h; simp [hnl] at h
    | other => rw [extractChainLoop.eq_def] at h; simp [hnl] at h
  | case5 t args acc hnotsel =>
    intro l ats h
    cases t with
    | selector a b => exact (hnotsel a b rfl).elim
    | ident name => rw [extractChainLoop.eq_def] at h; simp at h
    | basicLit k v => rw [extractChainLoop.eq_def] at h; simp at h
    | call a b => rw [extractChainLoop.eq_def] at h; simp at h
    | other => rw [extractChainLoop.eq_def] at h; simp at h

end ZerologSlog

namespace ZerologSlog

/-- C1 counterexample: in the chain `log.Info().Foo("x").Msg("m")` the Field
Mapper fails on the link `Foo` (one argument, unrecognized name), yet the
Chain Extractor still succeeds — returning the chain with the field dropped
instead of no-match — and the Statement Matcher records a replacement for the
statement, so a partial conversion is produced. -/
theorem claim1_counterexample :
    convertFieldToSlogAttr "Foo" [Expr.basicLit "STRING" "\"x\""] = none ∧
    extractZerologChain
        (Expr.selector (Expr.call (Expr.selector (Expr.ident "log") "Info") []) "Foo")
        [Expr.basicLit "STRING" "\"x\""] "Msg" [Expr.basicLit "STRING" "\"m\""] =
      Except.ok ("Info", some (Expr.basicLit "STRING" "\"m\""), []) ∧
    visit (Node.exprStmt (Expr.call (Expr.selector (Expr.call
        (Expr.selector (Expr.call (Expr.selector (Expr.ident "log") "Info") []) "Foo")
        [Expr.basicLit "STRING" "\"x\""]) "Msg") [Expr.basicLit "STRING" "\"m\""]) 0) =
      Except.ok (some (Node.exprStmt (Expr.call (Expr.selector (Expr.ident "slog") "LogAttrs")
        [Expr.ident "ctx", Expr.selector (Expr.ident "slog") "LevelInfo",
         Expr.basicLit "STRING" "\"m\""]) 0)) := by
  refine ⟨by decide, by decide, by decide⟩

/-- C1 (amended): when the Field Mapper fails to recognize a field link, the
Chain Extractor silently drops that one link and keeps walking; the statement
is still converted, and the Replacement Map entry carries every recognized
field (in order) with only the unrecognized field missing — the opposite of
an all-or-nothing policy. -/
theorem claim1_unrecognized_field_dropped (root level : String)
    (pre post : List (String × List Expr)) (f : String × List Expr)
    (m : Expr) (d : Decs)
    (hlvl : isLoggerLevel level = true)
    (hfld : ∀ p ∈ pre ++ [f] ++ post, isLoggerLevel p.1 = false)
    (hnomatch : convertFieldToSlogAttr f.1 f.2 = none) :
    visit (Node.exprStmt
        (Expr.call (Expr.selector (mkChain root level (pre ++ [f] ++ post)) "Msg") [m]) d) =
      Except.ok (some (Node.exprStmt
        (buildSlogLogAttrsCall level m
          ((pre.filterMap fun p => convertFieldToSlogAttr p.1 p.2) ++
           (post.filterMap fun p => convertFieldToSlogAttr p.1 p.2))) d)) := by
  rw [visit_mkChain_msg root level (pre ++ [f] ++ post) m [] d hlvl hfld]
  simp [List.filterMap_append, hnomatch]

/-- C1 witness: a concrete chain `log.Info().Str("k","v").Foo("x").Int("n",1).Msg("m")`
whose `Foo` link the Field Mapper rejects is still converted, keeping the
`Str` and `Int` attributes only. -/
theorem claim1_witness :
    visit (Node.exprStmt
        (Expr.call (Expr.selector (mkChain "log" "Info"
          ([("Str", [Expr.basicLit "STRING" "\"k\"", Expr.basicLit "STRING" "\"v\""])] ++
           [("Foo", [Expr.basicLit "STRING" "\"x\""])] ++
           [("Int", [Expr.basicLit "STRING" "\"n\"", Expr.basicLit "INT" "1"])])) "Msg")
          [Expr.basicLit "STRING" "\"m\""]) 0) =
      Except.ok (some (Node.exprStmt
        (buildSlogLogAttrsCall "Info" (Expr.basicLit "STRING" "\"m\"")
          (([("Str", [Expr.basicLit "STRING" "\"k\"", Expr.basicLit "STRING" "\"v\""])].filterMap
              fun p => convertFieldToSlogAttr p.1 p.2) ++
           ([("Int", [Expr.basicLit "STRING" "\"n\"", Expr.basicLit "INT" "1"])].filterMap
              fun p => convertFieldToSlogAttr p.1 p.2))) 0)) :=
  claim1_unrecognized_field_dropped "log" "Info"
    [("Str", [Expr.basicLit "STRING" "\"k\"", Expr.basicLit "STRING" "\"v\""])]
    [("Int", [Expr.basicLit "STRING" "\"n\"", Expr.basicLit "INT" "1"])]
    ("Foo", [Expr.basicLit "STRING" "\"x\""])
    (Expr.basicLit "STRING" "\"m\"") 0 (by decide) (by decide) (by decide)

/-- C4: for a convertible chain whose field links `F1, …, Fn` (attached
left-to-right in the source) are all recognized by the Field Mapper, the
recorded replacement is the flat call whose argument list carries the
converted fields in the same left-to-right order, after the context
placeholder, the level selector and the message. -/
theorem claim4_field_order (root level : String)
    (fields : List (String × List Expr)) (attrs : List Expr) (m : Expr) (d : Decs)
    (hlvl : isLoggerLevel level = true)
    (hfld : ∀ p ∈ fields, isLoggerLevel p.1 = false)
    (hconv : fields.mapM (fun p => convertFieldToSlogAttr p.1 p.2) = some attrs) :
    visit (Node.exprStmt
        (Expr.call (Expr.selector (mkChain root level fields) "Msg") [m]) d) =
      Except.ok (some (Node.exprStmt
        (Expr.call (Expr.selector (Expr.ident "slog") "LogAttrs")
          (Expr.ident "ctx" :: slogLevelSel level :: m :: attrs)) d)) := by
  rw [visit_mkChain_msg root level fields m [] d hlvl hfld,
    filterMap_eq_of_mapM_eq_some _ fields attrs hconv, buildSlogLogAttrsCall_args]

/-- C4 witness: the chain `log.Debug().Int("num",42).Bool("active",true).Msg("debugging")`
is converted with the `Int` attribute before the `Bool` attribute, matching
their left-to-right source order. -/
theorem claim4_witness :
    visit (Node.exprStmt
        (Expr.call (Expr.selector (mkChain "log" "Debug"
          [("Int", [Expr.basicLit "STRING" "\"num\"", Expr.basicLit "INT" "42"]),
           ("Bool", [Expr.basicLit "STRING" "\"active\"", Expr.ident "true"])]) "Msg")
          [Expr.basicLit "STRING" "\"debugging\""]) 0) =
      Except.ok (some (Node.exprStmt
        (Expr.call (Expr.selector (Expr.ident "slog") "LogAttrs")
          (Expr.ident "ctx" :: slogLevelSel "Debug" :: Expr.basicLit "STRING" "\"debugging\"" ::
            [Expr.call (Expr.selector (Expr.ident "slog") "Int")
              [Expr.basicLit "STRING" "\"num\"", Expr.basicLit "INT" "42"],
             Expr.call (Expr.selector (Expr.ident "slog") "Bool")
              [Expr.basicLit "STRING" "\"active\"", Expr.ident "true"]])) 0)) :=
  claim4_field_order "log" "Debug"
    [("Int", [Expr.basicLit "STRING" "\"num\"", Expr.basicLit "INT" "42"]),
     ("Bool", [Expr.basicLit "STRING" "\"active\"", Expr.ident "true"])]
    [Expr.call (Expr.selector (Expr.ident "slog") "Int")
      [Expr.basicLit "STRING" "\"num\"", Expr.basicLit "INT" "42"],
     Expr.call (Expr.selector (Expr.ident "slog") "Bool")
      [Expr.basicLit "STRING" "\"active\"", Expr.ident "true"]]
    (Expr.basicLit "STRING" "\"debugging\"") 0 (by decide) (by decide) (by decide)

/-- C10: chain matching never inspects the root identifier's name or the
file's imports — for an arbitrary root identifier name, a chain statement is
converted, and the one-statement tree containing no import of the source
logging package is rewritten all the same; the call-replacement decision
depends only on the statement node itself. -/
theorem claim10_root_identity_ignored (root level : String)
    (fields : List (String × List Expr)) (m : Expr) (rest : List Expr) (d : Decs)
    (hlvl : isLoggerLevel level = true)
    (hfld : ∀ p ∈ fields, isLoggerLevel p.1 = false) :
    visit (Node.exprStmt
        (Expr.call (Expr.selector (mkChain root level fields) "Msg") (m :: rest)) d) =
      Except.ok (some (Node.exprStmt (buildSlogLogAttrsCall level m
        (fields.filterMap fun p => convertFieldToSlogAttr p.1 p.2)) d)) ∧
    transformNodes [Node.exprStmt
        (Expr.call (Expr.selector (mkChain root level fields) "Msg") (m :: rest)) d] =
      Except.ok [Node.exprStmt (buildSlogLogAttrsCall level m
        (fields.filterMap fun p => convertFieldToSlogAttr p.1 p.2)) d] := by
  have h := visit_mkChain_msg root level fields m rest d hlvl hfld
  refine ⟨h, ?_⟩
  simp [transformNodes, h]

/-- C10 witness: a chain rooted at the identifier `mylogger` — not the source
logging package name — and with no import node in the tree is converted. -/
theorem claim10_witness :
    visit (Node.exprStmt
        (Expr.call (Expr.selector (mkChain "mylogger" "Warn" []) "Msg")
          (Expr.basicLit "STRING" "\"w\"" :: [])) 4) =
      Except.ok (some (Node.exprStmt (buildSlogLogAttrsCall "Warn"
        (Expr.basicLit "STRING" "\"w\"")
        (([] : List (String × List Expr)).filterMap
          fun p => convertFieldToSlogAttr p.1 p.2)) 4)) ∧
    transformNodes [Node.exprStmt
        (Expr.call (Expr.selector (mkChain "mylogger" "Warn" []) "Msg")
          (Expr.basicLit "STRING" "\"w\"" :: [])) 4] =
      Except.ok [Node.exprStmt (buildSlogLogAttrsCall "Warn"
        (Expr.basicLit "STRING" "\"w\"")
        (([] : List (String × List Expr)).filterMap
          fun p => convertFieldToSlogAttr p.1 p.2)) 4] :=
  claim10_root_identity_ignored "mylogger" "Warn" []
    (Expr.basicLit "STRING" "\"w\"") [] 4 (by decide) (by decide)

/-- C3 counterexample: the field method `Err` applied to two arguments is
still recognized by the Field Mapper (the Go `case "Err"` performs no arity
check), contradicting the claim that any arity other than 1 yields no-match. -/
theorem claim3_counterexample :
    convertFieldToSlogAttr "Err" [Expr.ident "a", Expr.ident "b"] =
      some (Expr.call (Expr.selector (Expr.ident "slog") "Any")
        [Expr.basicLit "STRING" "\"err\"", Expr.ident "a", Expr.ident "b"]) ∧
    convertFieldToSlogAttr "Err" [Expr.ident "a", Expr.ident "b"] ≠ none := by
  constructor
  · decide
  · decide

/-- C3 (amended): for every argument list — of any arity — the field method
`Err` produces an `Any` call with the synthesized literal key `"err"`
prepended before the arguments; it never returns no-match. -/
theorem claim3_err_any_arity (args : List Expr) :
    convertFieldToSlogAttr "Err" args =
      some (Expr.call (Expr.selector (Expr.ident "slog") "Any")
        (Expr.basicLit "STRING" "\"err\"" :: args)) := rfl

/-- C5: the severity mapping of `buildSlogLogAttrsCall` is total and agrees
with the specification's table: Trace, Debug, Info, Warn and Error map to the
same-named `slog` level constant, Fatal and Panic to the Error constant, and
every other name to the Info constant; the built call is always
`slog.LogAttrs(ctx, slog.<target level>, message, attrs...)`. -/
theorem claim5_severity_mapping (l : String) (msg : Expr) (attrs : List Expr) :
    buildSlogLogAttrsCall l msg attrs =
      Expr.call (Expr.selector (Expr.ident "slog") "LogAttrs")
        (Expr.ident "ctx" :: Expr.selector (Expr.ident "slog") (specSeverityTarget l)
          :: msg :: attrs) := by
  by_cases h1 : l = "Trace"
  · subst h1; rfl
  by_cases h2 : l = "Debug"
  · subst h2; rfl
  by_cases h3 : l = "Info"
  · subst h3; rfl
  by_cases h4 : l = "Warn"
  · subst h4; rfl
  by_cases h5 : l = "Error"
  · subst h5; rfl
  by_cases h6 : l = "Fatal"
  · subst h6; rfl
  by_cases h7 : l = "Panic"
  · subst h7; rfl
  have b1 : (l == "Trace") = false := beq_eq_false_iff_ne.mpr h1
  have b2 : (l == "Debug") = false := beq_eq_false_iff_ne.mpr h2
  have b3 : (l == "Info") = false := beq_eq_false_iff_ne.mpr h3
  have b4 : (l == "Warn") = false := beq_eq_false_iff_ne.mpr h4
  have b5 : (l == "Error") = false := beq_eq_false_iff_ne.mpr h5
  have b6 : (l == "Fatal") = false := beq_eq_false_iff_ne.mpr h6
  have b7 : (l == "Panic") = false := beq_eq_false_iff_ne.mpr h7
  have hlook : logLevels.lookup l = none := by
    simp [logLevels, List.lookup, b1, b2, b3, b4, b5, b6, b7]
  have htarget : specSeverityTarget l = "LevelInfo" := by
    simp [specSeverityTarget, h1, h2, h3, h4, h5, h6, h7]
  simp only [buildSlogLogAttrsCall, hlook, htarget]
  rfl

end ZerologSlog

namespace ZerologSlog

/-- C2: the transformer does NOT handle a zero-argument `Msg` terminator —
on the statement `x.Info().Msg()` the Go code evaluates `termArgs[0]` on an
empty slice, an index-out-of-range runtime panic (`Except.error ()` in this
embedding), both in `extractZerologChain` and as propagated through the
visitor; this contradicts the claim that every parseable statement is
handled without a panic. -/
theorem claim2_panic_on_zero_arg_msg :
    extractZerologChain (Expr.selector (Expr.ident "x") "Info") [] "Msg" [] =
      Except.error () ∧
    visit (Node.exprStmt (Expr.call (Expr.selector
        (Expr.call (Expr.selector (Expr.ident "x") "Info") []) "Msg") []) 0) =
      Except.error () := by
  refine ⟨by decide, by decide⟩

/-- C6: message resolution of the Chain Extractor — for a `Msg` or `Msgf`
terminator every successful extraction's message is exactly the terminator's
first argument; for `Msgf` the trailing format arguments are dropped entirely
(the result does not depend on them); for `Send` the message of every
successful extraction is the synthesized literal `"zerolog event"`. -/
theorem claim6_message_resolution (chainFn : Expr) (chainArgs : List Expr)
    (m : Expr) (rest ta : List Expr) (l : String) (msg : Expr)
    (attrs : List Expr) :
    (extractZerologChain chainFn chainArgs "Msg" (m :: rest) =
        Except.ok (l, some msg, attrs) → msg = m) ∧
    (extractZerologChain chainFn chainArgs "Msgf" (m :: rest) =
        Except.ok (l, some msg, attrs) → msg = m) ∧
    (extractZerologChain chainFn chainArgs "Msgf" (m :: rest) =
        extractZerologChain chainFn chainArgs "Msgf" [m]) ∧
    (extractZerologChain chainFn chainArgs "Send" ta =
        Except.ok (l, some msg, attrs) →
      msg = Expr.basicLit "STRING" "\"zerolog event\"") := by
  refine ⟨?_, ?_, rfl, ?_⟩
  · intro h
    cases hloop : extractChainLoop chainFn chainArgs [] with
    | some p =>
      obtain ⟨lv, ats⟩ := p
      simp [extractZerologChain, hloop] at h
      exact h.2.1.symm
    | none => simp [extractZerologChain, hloop] at h
  · intro h
    cases hloop : extractChainLoop chainFn chainArgs [] with
    | some p =>
      obtain ⟨lv, ats⟩ := p
      simp [extractZerologChain, hloop] at h
      exact h.2.1.symm
    | none => simp [extractZerologChain, hloop] at h
  · intro h
    cases hloop : extractChainLoop chainFn chainArgs [] with
    | some p =>
      obtain ⟨lv, ats⟩ := p
      simp [extractZerologChain, hloop] at h
      exact h.2.1.symm
    | none => simp [extractZerologChain, hloop] at h

/-- C6 witness: on the concrete chains `log.Info().Msgf("hi", "t")` and
`log.Info().Send()` the theorem's hypotheses hold, giving the format-string
message for the former and the synthesized default for the latter. -/
theorem claim6_witness :
    Expr.basicLit "STRING" "\"hi\"" = Expr.basicLit "STRING" "\"hi\"" ∧
    Expr.basicLit "STRING" "\"zerolog event\"" =
      Expr.basicLit "STRING" "\"zerolog event\"" :=
  ⟨(claim6_message_resolution (Expr.selector (Expr.ident "log") "Info") []
      (Expr.basicLit "STRING" "\"hi\"") [Expr.basicLit "STRING" "\"t\""] [] "Info"
      (Expr.basicLit "STRING" "\"hi\"") []).2.1 (by decide),
   (claim6_message_resolution (Expr.selector (Expr.ident "log") "Info") []
      (Expr.basicLit "STRING" "\"hi\"") [Expr.basicLit "STRING" "\"t\""] [] "Info"
      (Expr.basicLit "STRING" "\"zerolog event\"") []).2.2.2 (by decide)⟩

/-- C9: failure atomicity of the Chain Extractor — every non-panicking
result with an absent message also has the empty level and the empty field
list (the Go `return "", nil, nil`), and every result with a present message
has a level from the enumerated level set; so the caller's single nil-test
on the message exactly characterizes failure. -/
theorem claim9_failure_atomicity (chainFn : Expr) (chainArgs : List Expr)
    (termFunc : String) (termArgs : List Expr) (l : String)
    (msg : Option Expr) (attrs : List Expr)
    (h : extractZerologChain chainFn chainArgs termFunc termArgs =
      Except.ok (l, msg, attrs)) :
    (msg = none → l = "" ∧ attrs = []) ∧
    (∀ m, msg = some m → isLoggerLevel l = true) := by
  by_cases hterm : termFunc = "Msg" ∨ termFunc = "Msgf"
  · cases termArgs with
    | nil => simp [extractZerologChain, hterm] at h
    | cons m rest =>
      cases hloop : extractChainLoop chainFn chainArgs [] with
      | some p =>
        obtain ⟨lv, ats⟩ := p
        simp [extractZerologChain, hterm, hloop] at h
        obtain ⟨h1, h2, h3⟩ := h
        subst h1
        constructor
        · intro hmsg; rw [← h2] at hmsg; cases hmsg
        · intro m' _
          exact extractChainLoop_isLevel chainFn chainArgs [] lv ats hloop
      | none =>
        simp [extractZerologChain, hterm, hloop] at h
        obtain ⟨h1, h2, h3⟩ := h
        subst h1; subst h3
        constructor
        · intro _; exact ⟨rfl, rfl⟩
        · intro m' hm'; rw [← h2] at hm'; cases hm'
  · cases hloop : extractChainLoop chainFn chainArgs [] with
    | some p =>
      obtain ⟨lv, ats⟩ := p
      simp [extractZerologChain, hterm, hloop] at h
      obtain ⟨h1, h2, h3⟩ := h
      subst h1
      constructor
      · intro hmsg; rw [← h2] at hmsg; cases hmsg
      · intro m' _
        exact extractChainLoop_isLevel chainFn chainArgs [] lv ats hloop
    | none =>
      simp [extractZerologChain, hterm, hloop] at h
      obtain ⟨h1, h2, h3⟩ := h
      subst h1; subst h3
      constructor
      · intro _; exact ⟨rfl, rfl⟩
      · intro m' hm'; rw [← h2] at hm'; cases hm'

/-- C9 witness: the concrete successful extraction of `log.Error().Msg("f")`
satisfies the theorem's hypothesis, and the concrete failing extraction of a
chain rooted in a call-free receiver returns the all-empty triple. -/
theorem claim9_witness :
    ((some (Expr.basicLit "STRING" "\"f\"") = none →
        "Error" = "" ∧ ([] : List Expr) = []) ∧
      (∀ m, some (Expr.basicLit "STRING" "\"f\"") = some m →
        isLoggerLevel "Error" = true)) :=
  claim9_failure_atomicity (Expr.selector (Expr.ident "log") "Error") [] "Msg"
    [Expr.basicLit "STRING" "\"f\""] "Error"
    (some (Expr.basicLit "STRING" "\"f\"")) [] (by decide)

end ZerologSlog

namespace ZerologSlog

/-- Shape of every recorded replacement: a zerolog import is replaced by the
slog import with the same decorations, and a statement is replaced by a new
expression statement around a freshly built flat-logging call with the same
decorations. -/
theorem visit_replacement_shape (n r : Node)
    (h : visit n = Except.ok (some r)) :
    (∃ d, n = Node.importSpec "\"github.com/rs/zerolog/log\"" d ∧
      r = Node.importSpec "\"log/slog\"" d) ∨
    (∃ x d lv mm ats, n = Node.exprStmt x d ∧
      r = Node.exprStmt (buildSlogLogAttrsCall lv mm ats) d) := by
  cases n with
  | importSpec p d =>
    by_cases hp : p = "\"github.com/rs/zerolog/log\""
    · left
      subst hp
      simp [visit] at h
      exact ⟨d, rfl, h.symm⟩
    · simp [visit, hp] at h
  | exprStmt x d =>
    right
    cases x with
    | call fn callArgs =>
      cases fn with
      | selector sx termFunc =>
        by_cases ht : termFunc = "Msg" ∨ termFunc = "Msgf" ∨ termFunc = "Send"
        · cases sx with
          | call chainFn chainArgs =>
            cases hex : extractZerologChain chainFn chainArgs termFunc callArgs with
            | error e => simp [visit, ht, hex] at h
            | ok t =>
              obtain ⟨lv, msgOpt, ats⟩ := t
              cases msgOpt with
              | none => simp [visit, ht, hex] at h
              | some mm =>
                simp [visit, ht, hex] at h
                exact ⟨_, _, lv, mm, ats, rfl, h.symm⟩
          | ident a => simp [visit, ht] at h
          | basicLit a b => simp [visit, ht] at h
          | selector a b => simp [visit, ht] at h
          | other => simp [visit, ht] at h
        · simp [visit, ht] at h
      | ident a => simp [visit] at h
      | basicLit a b => simp [visit] at h
      | call a b => simp [visit] at h
      | other => simp [visit] at h
    | ident a => simp [visit] at h
    | basicLit a b => simp [visit] at h
    | selector a b => simp [visit] at h
    | other => simp [visit] at h
  | other => simp [visit] at h

/-- A recorded replacement node never matches again: visiting it records
nothing. -/
theorem visit_replacement_no_rematch (n r : Node)
    (h : visit n = Except.ok (some r)) : visit r = Except.ok none := by
  rcases visit_replacement_shape n r h with ⟨d, _, hr⟩ | ⟨x, d, lv, mm, ats, _, hr⟩
  · subst hr
    simp [visit]
  · subst hr
    rw [buildSlogLogAttrsCall_args]
    simp [visit]

/-- Every node of a transformed tree is visited without producing a
replacement. -/
theorem transformNodes_output_no_match (ns : List Node) :
    ∀ out, transformNodes ns = Except.ok out →
      ∀ n ∈ out, visit n = Except.ok none := by
  induction ns with
  | nil =>
    intro out h
    simp [transformNodes] at h
    subst h
    simp
  | cons a as ih =>
    intro out h
    cases hv : visit a with
    | error e => simp [transformNodes, hv] at h
    | ok r =>
      cases hrest : transformNodes as with
      | error e => simp [transformNodes, hv, hrest] at h
      | ok rest' =>
        simp only [transformNodes, hv, hrest, Except.ok.injEq] at h
        intro n hn
        rw [← h] at hn
        rcases List.mem_cons.mp hn with hh | hh
        · subst hh
          cases r with
          | none => simpa using hv
          | some rr => exact visit_replacement_no_rematch a rr hv
        · exact ih rest' hrest n hh

/-- A tree none of whose nodes matches is transformed to itself. -/
theorem transformNodes_fixed (ms : List Node) :
    (∀ n ∈ ms, visit n = Except.ok none) → transformNodes ms = Except.ok ms := by
  induction ms with
  | nil => intro _; rfl
  | cons a as iha =>
    intro hms
    have h1 : visit a = Except.ok none := hms a (by simp)
    have h2 : transformNodes as = Except.ok as :=
      iha (fun n hn => hms n (by simp [hn]))
    simp [transformNodes, h1, h2]

end ZerologSlog

namespace ZerologSlog

/-- C7: every recorded replacement preserves the original node's decoration
payload — a replaced statement is a new expression statement with exactly the
original statement's decorations, a replaced import is a new import with
exactly the original import's decorations — and a node on which no
replacement is recorded comes out of the rewrite pass identical. -/
theorem claim7_decorations_preserved :
    (∀ n r, visit n = Except.ok (some r) →
      ((∃ d, n = Node.importSpec "\"github.com/rs/zerolog/log\"" d ∧
          r = Node.importSpec "\"log/slog\"" d) ∨
       (∃ x d y, n = Node.exprStmt x d ∧ r = Node.exprStmt y d))) ∧
    (∀ ns out, transformNodes ns = Except.ok out →
      ∀ i : Nat, ∀ fi fo, ns[i]? = some fi → out[i]? = some fo →
        visit fi = Except.ok none → fo = fi) := by
  constructor
  · intro n r h
    rcases visit_replacement_shape n r h with ⟨d, hn, hr⟩ | ⟨x, d, lv, mm, ats, hn, hr⟩
    · exact Or.inl ⟨d, hn, hr⟩
    · exact Or.inr ⟨x, d, buildSlogLogAttrsCall lv mm ats, hn, hr⟩
  · intro ns
    induction ns with
    | nil =>
      intro out h i fi fo hfi hfo hvn
      simp at hfi
    | cons a as ih =>
      intro out h i fi fo hfi hfo hvn
      cases hv : visit a with
      | error e => simp [transformNodes, hv] at h
      | ok r =>
        cases hrest : transformNodes as with
        | error e => simp [transformNodes, hv, hrest] at h
        | ok rest' =>
          simp only [transformNodes, hv, hrest, Except.ok.injEq] at h
          subst h
          cases i with
          | zero =>
            simp at hfi hfo
            subst hfi
            rw [hvn] at hv
            cases hv
            simpa using hfo.symm
          | succ j =>
            simp at hfi hfo
            exact ih rest' hrest j fi fo hfi hfo hvn

/-- C7 witness: the zerolog import node with decoration token 5 is replaced
by the slog import carrying the same decoration token 5. -/
theorem claim7_witness :
    (∃ d, Node.importSpec "\"github.com/rs/zerolog/log\"" 5 =
        Node.importSpec "\"github.com/rs/zerolog/log\"" d ∧
      Node.importSpec "\"log/slog\"" 5 = Node.importSpec "\"log/slog\"" d) ∨
    (∃ x d y, Node.importSpec "\"github.com/rs/zerolog/log\"" 5 = Node.exprStmt x d ∧
      Node.importSpec "\"log/slog\"" 5 = Node.exprStmt y d) :=
  claim7_decorations_preserved.1
    (Node.importSpec "\"github.com/rs/zerolog/log\"" 5)
    (Node.importSpec "\"log/slog\"" 5) (by decide)

/-- C8: idempotence — when a full run of the transformation succeeds, a
second run over its output records no replacement at all (the Replacement
Map of the second run is empty, and the output is transformed to itself):
no node of the output matches the call-chain pattern or carries the source
logging import path. -/
theorem claim8_idempotence (ns out : List Node)
    (h : transformNodes ns = Except.ok out) :
    transformNodes out = Except.ok out ∧
    ∀ n ∈ out, visit n = Except.ok none := by
  have hall : ∀ n ∈ out, visit n = Except.ok none :=
    transformNodes_output_no_match ns out h
  exact ⟨transformNodes_fixed out hall, hall⟩

/-- C8 witness: a concrete three-node tree — the zerolog import, the
statement `log.Info().Msg("hello")`, and an unrelated node — transforms to
the slog import and the flat call; re-running the transformation on that
output returns it unchanged and visits every node without a match. -/
theorem claim8_witness :
    transformNodes
        [Node.importSpec "\"log/slog\"" 1,
         Node.exprStmt (Expr.call (Expr.selector (Expr.ident "slog") "LogAttrs")
           [Expr.ident "ctx", Expr.selector (Expr.ident "slog") "LevelInfo",
            Expr.basicLit "STRING" "\"hello\""]) 2,
         Node.other] =
      Except.ok
        [Node.importSpec "\"log/slog\"" 1,
         Node.exprStmt (Expr.call (Expr.selector (Expr.ident "slog") "LogAttrs")
           [Expr.ident "ctx", Expr.selector (Expr.ident "slog") "LevelInfo",
            Expr.basicLit "STRING" "\"hello\""]) 2,
         Node.other] ∧
    ∀ n ∈ [Node.importSpec "\"log/slog\"" 1,
         Node.exprStmt (Expr.call (Expr.selector (Expr.ident "slog") "LogAttrs")
           [Expr.ident "ctx", Expr.selector (Expr.ident "slog") "LevelInfo",
            Expr.basicLit "STRING" "\"hello\""]) 2,
         Node.other], visit n = Except.ok none :=
  claim8_idempotence
    [Node.importSpec "\"github.com/rs/zerolog/log\"" 1,
     Node.exprStmt (Expr.call (Expr.selector
       (Expr.call (Expr.selector (Expr.ident "log") "Info") []) "Msg")
       [Expr.basicLit "STRING" "\"hello\""]) 2,
     Node.other]
    [Node.importSpec "\"log/slog\"" 1,
     Node.exprStmt (Expr.call (Expr.selector (Expr.ident "slog") "LogAttrs")
       [Expr.ident "ctx", Expr.selector (Expr.ident "slog") "LevelInfo",
        Expr.basicLit "STRING" "\"hello\""]) 2,
     Node.other] (by decide)

end ZerologSlog
